import Mathlib

/-!
# Verification of `apply_issue.py` (depot_tools)

A shallow embedding of the control flow of `apply_issue.py`'s `main`
function: argument validation, the `update.flag` sentinel, the
authentication cascade (lines 140-184), the dependency-chain resolution
loop (lines 190-215), the patch fetch/apply loop (lines 230-285) and the
`gclient sync` trigger (lines 287-316).

External collaborators (the Rietveld service, the filesystem, the SCM
checkout, the `gclient` subprocess) are modelled as an `Env` record of
oracles.  Network answers that the review service gives to the successive
`get_depends_on_patchset` calls are modelled as a list of `DepResult`
values consumed one per call, in call order; patch retrieval and patch
application are modelled as functions of the `(issue, patchset)` pair.
Observable side effects (HTTP requests, patch applications, the sync
subprocess invocation) are collected in an event trace.

Python 2 exception-class facts that the control flow depends on are
reflected in the model: `urllib2.HTTPError` is a subclass of
`urllib2.URLError`, and `rietveld.upload.ClientLoginError` is a subclass
of `urllib2.HTTPError` (the source itself notes the "bad except clauses
order" at lines 156-158).  An exception that no clause catches terminates
the interpreter with exit status 1.
-/

namespace ApplyIssue

/-- Exit code constants, lines 29-32 of the source. -/
def RETURN_CODE_OK : Nat := 0

def RETURN_CODE_OTHER_FAILURE : Nat := 1

def RETURN_CODE_ARGPARSE_FAILURE : Nat := 2

def RETURN_CODE_INFRA_FAILURE : Nat := 3

/-- One immutable `(issue, patchset)` pair on the review service. -/
structure IssueRef where
  issue : Nat
  patchset : Nat
deriving DecidableEq, Repr

/-- The answer of one `get_depends_on_patchset` call.

`link` : the call succeeded and reported a dependency;
`noDep` : the call succeeded and reported no dependency (falsy value);
`httpError` : the call raised `urllib2.HTTPError` (not-found class);
`urlError` : the call raised a plain `urllib2.URLError` (transport fault). -/
inductive DepResult
  | link (target : IssueRef)
  | noDep
  | httpError
  | urlError
deriving DecidableEq, Repr

/-- The SCM kind detected by `scm.determine_scm` (line 259): the string
`svn`, the string `git`, or Python `None`. -/
inductive ScmKind
  | svn
  | git
  | noScm
deriving DecidableEq, Repr

/-- Observable side effects of a run, in order of occurrence. -/
inductive Event
  | oauthPropsFetch
  | anonPropsFetch
  | authPropsFetch
  | depQuery
  | patchFetch (r : IssueRef)
  | buildbotPatched
  | patchApply (r : IssueRef) (files : List String)
  | patchApplyFailed (r : IssueRef) (files : List String)
  | syncCall (args : List String)
  | emitRevisions
deriving DecidableEq, Repr

/-- The issue properties dictionary, of which only `properties['patchsets']`
is read (line 187). -/
structure IssueProps where
  patchsets : List Nat
deriving DecidableEq, Repr

/-- The answer of one `get_issue_properties` call. -/
inductive AuthResult
  | ok (props : IssueProps)
  | http (code : Nat)
  | clientLogin (code : Nat)
  | urlError
deriving DecidableEq, Repr

/-- The answer of one `get_patch` call (line 235). -/
inductive FetchResult
  | ok (filenames : List String)
  | httpError
  | urlError
deriving DecidableEq, Repr

/-- The external world of one run. -/
structure Env where
  /-- `os.path.isfile(os.path.join(os.getcwd(), 'update.flag'))`, line 113. -/
  updateFlagInCwd : Bool
  /-- `os.path.exists(options.email_file)`, line 135. -/
  emailFileExists : Bool
  /-- Answer to `get_issue_properties` on the OAuth2 client (line 148). -/
  oauthFetch : AuthResult
  /-- Answer to `get_issue_properties` on the unauthenticated client (line 160). -/
  anonFetch : AuthResult
  /-- Answer to `get_issue_properties` on the authenticated client (line 178). -/
  authFetch : AuthResult
  /-- Answers to the successive `get_depends_on_patchset` calls, consumed
  one per call in call order (lines 192 and 202). -/
  depResponses : List DepResult
  /-- Answer to `get_patch` for a given pair (line 235). -/
  getPatch : IssueRef → FetchResult
  /-- Whether `scm_obj.apply_patch` succeeds for a given pair and filtered
  file list (line 280); `false` means `checkout.PatchApplicationFailed`. -/
  applyPatchOk : IssueRef → List String → Bool
  /-- `getpass.getuser()`, line 272. -/
  user : String
  /-- `scm.determine_scm(full_dir)`, line 259. -/
  scmType : ScmKind
  /-- Truthiness of `gclient_utils.FindGclientRoot(full_dir)`, line 289. -/
  gclientRootFound : Bool
  /-- Exit code of the `gclient sync` subprocess, line 308. -/
  syncRetcode : Nat
  /-- The temporary file name produced by `annotated_gclient.temp_filename`,
  line 297. -/
  tempFile : String

/-- The parsed command-line options (`_get_arg_parser`, lines 48-97).
`issue = 0` and `patchset = 0` model the falsy "not supplied" values
tested by `if not options.issue` / `if not options.patchset`;
`revisionMapping` models the truthiness of the parsed JSON mapping. -/
structure Options where
  email : Option String
  emailFile : Option String
  privateKeyFile : Option String
  issue : Nat
  patchset : Nat
  rootDir : String
  server : String
  noAuth : Bool
  revisionMapping : Bool
  force : Bool
  whitelist : List String
  blacklist : List String
  ignoreDeps : Bool
  extraArgs : List String

/-- `os.path.basename` on a POSIX path: everything after the last slash
(the whole string when it has no slash). -/
def basename (p : String) : String :=
  String.mk ((p.data.reverse.takeWhile (fun c => c != '/')).reverse)

/-- `options.server.rstrip('/')`, line 127. -/
def rstripSlash (s : String) : String :=
  String.mk ((s.data.reverse.dropWhile (fun c => c = '/')).reverse)

/-- The early-exit checks of `main` before any network activity, in source
order: lines 107-108 (`--whitelist`/`--blacklist` clash), 110-111
(`-e`/`-E` clash), 113-117 (`update.flag` sentinel), 123-124 (extra
arguments), 125-126 (missing `--issue`), 127-129 (empty server), 134-136
(missing email file).  `parser.error` exits with status 2. -/
def entryCheck (env : Env) (opts : Options) : Option Nat :=
  if opts.whitelist ≠ [] ∧ opts.blacklist ≠ [] then some RETURN_CODE_ARGPARSE_FAILURE
  else if opts.email.isSome ∧ opts.emailFile.isSome then some RETURN_CODE_ARGPARSE_FAILURE
  else if env.updateFlagInCwd = true ∧ opts.force = false then some RETURN_CODE_OK
  else if opts.extraArgs ≠ [] then some RETURN_CODE_ARGPARSE_FAILURE
  else if opts.issue = 0 then some RETURN_CODE_ARGPARSE_FAILURE
  else if rstripSlash opts.server = "" then some RETURN_CODE_ARGPARSE_FAILURE
  else if opts.emailFile.isSome ∧ env.emailFileExists = false then some RETURN_CODE_ARGPARSE_FAILURE
  else none

/-- Lines 174-184: the authenticated retry after the unauthenticated
attempt left `properties` unset.  The clause order is `ClientLoginError`
first (return 1), then `URLError` (return 3); an `HTTPError` is caught by
the `URLError` clause because it is a subclass. -/
def authRetry (env : Env) : List Event × (IssueProps ⊕ Nat) :=
  match env.authFetch with
  | .ok p => ([.anonPropsFetch, .authPropsFetch], .inl p)
  | .clientLogin _ => ([.anonPropsFetch, .authPropsFetch], .inr RETURN_CODE_OTHER_FAILURE)
  | .http _ => ([.anonPropsFetch, .authPropsFetch], .inr RETURN_CODE_INFRA_FAILURE)
  | .urlError => ([.anonPropsFetch, .authPropsFetch], .inr RETURN_CODE_INFRA_FAILURE)

/-- Lines 140-184: the authentication cascade producing the issue
properties or an exit code.

With a private key file (lines 142-151) the only except clause is
`urllib2.URLError`, which catches `HTTPError` and `ClientLoginError` as
well, so every failure exits 3.

Without one, the unauthenticated attempt's first clause
`except urllib2.HTTPError` also catches `ClientLoginError` (a subclass);
its body re-raises unless the code is 302 (an uncaught exception
terminates with status 1), calls `exit('FAIL: ...')` (status 1) when
`--no-auth` was given, and otherwise falls through to the authenticated
retry.  A plain `URLError` returns 3.  The
`except rietveld.upload.ClientLoginError` clause at line 171 is dead
code, shadowed by the `HTTPError` clause. -/
def authPhase (env : Env) (opts : Options) : List Event × (IssueProps ⊕ Nat) :=
  match opts.privateKeyFile with
  | some _ =>
    match env.oauthFetch with
    | .ok p => ([.oauthPropsFetch], .inl p)
    | _ => ([.oauthPropsFetch], .inr RETURN_CODE_INFRA_FAILURE)
  | none =>
    match env.anonFetch with
    | .ok p => ([.anonPropsFetch], .inl p)
    | .http code =>
      if code ≠ 302 then ([.anonPropsFetch], .inr RETURN_CODE_OTHER_FAILURE)
      else if opts.noAuth then ([.anonPropsFetch], .inr RETURN_CODE_OTHER_FAILURE)
      else authRetry env
    | .clientLogin code =>
      if code ≠ 302 then ([.anonPropsFetch], .inr RETURN_CODE_OTHER_FAILURE)
      else if opts.noAuth then ([.anonPropsFetch], .inr RETURN_CODE_OTHER_FAILURE)
      else authRetry env
    | .urlError => ([.anonPropsFetch], .inr RETURN_CODE_INFRA_FAILURE)

/-- Outcome of the dependency-chain resolution (lines 190-215).

`ok plan warnedIncomplete` : the loop exited; `warnedIncomplete` records
whether the "patchset that was marked as a dependency no longer exists"
warning (lines 207-211) was printed;
`infra` : `return RETURN_CODE_INFRA_FAILURE`;
`pending next planSoFar` : the supplied response list was exhausted while
the loop was still running (the model's image of the unbounded loop: the
next call would ask about `next` with `planSoFar` accumulated). -/
inductive ResolveOutcome
  | ok (plan : List IssueRef) (warnedIncomplete : Bool)
  | infra
  | pending (next : IssueRef) (planSoFar : List IssueRef)
deriving DecidableEq, Repr

/-- The `while depends_on_info` loop, lines 198-215.  `d` is the pair
extracted from the current `depends_on_info`; `acc` is
`issues_patchsets_to_apply`.  On a successful query (a link or a falsy
answer) `d` is inserted at position 0; on `HTTPError` it is not and the
loop ends with the warning; on a plain `URLError` the run returns 3. -/
def resolveLoop : List DepResult → IssueRef → List IssueRef → List Event × ResolveOutcome
  | [], d, acc => ([], .pending d acc)
  | r :: rs, d, acc =>
    match r with
    | .link x =>
      let rest := resolveLoop rs x (d :: acc)
      (.depQuery :: rest.1, rest.2)
    | .noDep => ([.depQuery], .ok (d :: acc) false)
    | .httpError => ([.depQuery], .ok acc true)
    | .urlError => ([.depQuery], .infra)

/-- Lines 190-215: `issues_patchsets_to_apply = [(issue, patchset)]`, the
initial `get_depends_on_patchset` call (whose `except urllib2.URLError`
clause also catches `HTTPError`, hence `infra` for both error kinds), then
the loop. -/
def resolve (resps : List DepResult) (root : IssueRef) : List Event × ResolveOutcome :=
  match resps with
  | [] => ([], .pending root [root])
  | r :: rs =>
    match r with
    | .link x =>
      let rest := resolveLoop rs x [root]
      (.depQuery :: rest.1, rest.2)
    | .noDep => ([.depQuery], .ok [root] false)
    | .httpError => ([.depQuery], .infra)
    | .urlError => ([.depQuery], .infra)

/-- The `(issue, patchset)` pairs the resolution would walk through for a
given response list: the root, then the target of each response of the
leading run of dependency links (response `k` answers the query about the
`k`-th element of this chain). -/
def chainOf : List DepResult → IssueRef → List IssueRef
  | [], d => [d]
  | .link x :: rs, d => d :: chainOf rs x
  | .noDep :: _, d => [d]
  | .httpError :: _, d => [d]
  | .urlError :: _, d => [d]

/-- The targets of every dependency link in a response list. -/
def linkTargets (resps : List DepResult) : List IssueRef :=
  resps.filterMap (fun r =>
    match r with
    | .link x => some x
    | _ => none)

/-- Lines 250-255: mutate `patchset.patches` by the whitelist filter, then
by the blacklist filter (at most one list is nonempty in a run that passed
the entry checks, but both conditionals are executed in this order). -/
def applyFilters (opts : Options) (files : List String) : List String :=
  let files := if opts.whitelist ≠ [] then files.filter (fun f => opts.whitelist.contains f) else files
  if opts.blacklist ≠ [] then files.filter (fun f => !(opts.blacklist.contains f)) else files

/-- Lines 269-276: the buildbot hack, writing `.buildbot-patched` when
`options.root_dir == 'src'` and the user is `chrome-bot`. -/
def bbEvents (env : Env) (opts : Options) : List Event :=
  if opts.rootDir = "src" ∧ env.user = "chrome-bot" then [.buildbotPatched] else []

/-- Outcome of the fetch/apply loop over the plan.

`done lastFiles` : every entry applied; `lastFiles` is the filtered
filename list of the final loop iteration's `patchset` variable (the one
line 287 reads), `none` when the loop body never ran (an empty plan, which
resolution never produces; in Python that run would stop with a
`NameError` at line 287);
`fail code` : an early `return code` out of `main`. -/
inductive ApplyLoopOutcome
  | done (lastFiles : Option (List String))
  | fail (code : Nat)
deriving DecidableEq, Repr

/-- The `for issue_to_apply, patchset_to_apply in issues_patchsets_to_apply`
loop, lines 230-285.  Per entry: `get_patch` (an `HTTPError` returns 1, a
plain `URLError` returns 3), the two filename filters, the buildbot hack,
then `scm_obj.apply_patch` (a `PatchApplicationFailed` returns 1). -/
def applyLoop (env : Env) (opts : Options) : List IssueRef → Option (List String) → List Event × ApplyLoopOutcome
  | [], last => ([], .done last)
  | r :: rs, _ =>
    match env.getPatch r with
    | .httpError => ([.patchFetch r], .fail RETURN_CODE_OTHER_FAILURE)
    | .urlError => ([.patchFetch r], .fail RETURN_CODE_INFRA_FAILURE)
    | .ok files =>
      let filtered := applyFilters opts files
      if env.applyPatchOk r filtered then
        let rest := applyLoop env opts rs (some filtered)
        (.patchFetch r :: (bbEvents env opts ++ .patchApply r filtered :: rest.1), rest.2)
      else
        (.patchFetch r :: (bbEvents env opts ++ [.patchApplyFailed r filtered]), .fail RETURN_CODE_OTHER_FAILURE)

/-- Lines 287-316: if the basename `DEPS` occurs among the last applied
patchset's filenames and `--ignore_deps` was not given, and both
`FindGclientRoot` and the detected SCM kind are truthy, run
`gclient sync --nohooks --delete_unversioned_trees`, with
`--revision BASE` appended for an svn checkout and `--output-json`
appended when a revision mapping was supplied, and return the subprocess's
exit code; every other path falls through to `return RETURN_CODE_OK`. -/
def syncPhase (env : Env) (opts : Options) (lastFiles : List String) : List Event × Option Nat :=
  if "DEPS" ∈ lastFiles.map basename ∧ opts.ignoreDeps = false then
    if env.gclientRootFound = true ∧ env.scmType ≠ ScmKind.noScm then
      let args := ["sync", "--nohooks", "--delete_unversioned_trees"]
        ++ (if env.scmType = ScmKind.svn then ["--revision", "BASE"] else [])
        ++ (if opts.revisionMapping then ["--output-json", env.tempFile] else [])
      (Event.syncCall args ::
        (if env.syncRetcode = 0 ∧ opts.revisionMapping then [Event.emitRevisions] else []),
        some env.syncRetcode)
    else ([], some RETURN_CODE_OK)
  else ([], some RETURN_CODE_OK)

/-- Lines 186-190: the requested pair, with the patchset defaulted to
`properties['patchsets'][-1]` when `--patchset` was not supplied. -/
def rootRef (opts : Options) (props : IssueProps) : IssueRef :=
  ⟨opts.issue, if opts.patchset ≠ 0 then opts.patchset else props.patchsets.getLastD 0⟩

/-- The continuation of `main` after the fetch/apply loop: an early
`return code` is surfaced, a completed loop continues into the sync
phase.  The `done none` arm is unreachable (resolution never produces an
empty plan); in Python that run would stop with a `NameError` at line
287, terminating with status 1. -/
def afterPlan (env : Env) (opts : Options) (aevs devs : List Event) :
    List Event × ApplyLoopOutcome → List Event × Option Nat
  | (pevs, .fail code) => (aevs ++ devs ++ pevs, some code)
  | (pevs, .done none) => (aevs ++ devs ++ pevs, some RETURN_CODE_OTHER_FAILURE)
  | (pevs, .done (some lastFiles)) =>
    (aevs ++ devs ++ pevs ++ (syncPhase env opts lastFiles).1,
     (syncPhase env opts lastFiles).2)

/-- The continuation of `main` after the dependency-chain resolution. -/
def afterResolve (env : Env) (opts : Options) (aevs : List Event) :
    List Event × ResolveOutcome → List Event × Option Nat
  | (devs, .infra) => (aevs ++ devs, some RETURN_CODE_INFRA_FAILURE)
  | (devs, .pending _ _) => (aevs ++ devs, none)
  | (devs, .ok plan _) => afterPlan env opts aevs devs (applyLoop env opts plan none)

/-- The body of `main` past the entry checks: the auth cascade, the
dependency-chain resolution, the fetch/apply loop and the sync phase.
The exit code is `none` only on the model artifact of an exhausted
response list (`ResolveOutcome.pending`). -/
def mainBody (env : Env) (opts : Options) : List Event × Option Nat :=
  match authPhase env opts with
  | (aevs, .inr code) => (aevs, some code)
  | (aevs, .inl props) =>
    afterResolve env opts aevs (resolve env.depResponses (rootRef opts props))

/-- The whole of `main` (lines 100-316): the early argument/sentinel
checks, then the body. -/
def main (env : Env) (opts : Options) : List Event × Option Nat :=
  match entryCheck env opts with
  | some code => ([], some code)
  | none => mainBody env opts

/-- The union, over the successfully applied patchsets recorded in a
trace, of the (filtered) filenames they touched — the spec's
TouchedFileSet. -/
def touchedFileSet : List Event → List String
  | [] => []
  | .patchApply _ fs :: rest => fs ++ touchedFileSet rest
  | _ :: rest => touchedFileSet rest

/-! ## Facts about the dependency-chain resolution -/

theorem resolveLoop_events (resps : List DepResult) (d : IssueRef) (acc : List IssueRef) :
    ∀ e ∈ (resolveLoop resps d acc).1, e = Event.depQuery := by
  induction resps generalizing d acc with
  | nil => intro e he; simp [resolveLoop] at he
  | cons r rs ih =>
    intro e he
    cases r with
    | link x =>
      simp only [resolveLoop, List.mem_cons] at he
      rcases he with h | h
      · exact h
      · exact ih x (d :: acc) e h
    | noDep =>
      simp only [resolveLoop, List.mem_singleton] at he
      exact he
    | httpError =>
      simp only [resolveLoop, List.mem_singleton] at he
      exact he
    | urlError =>
      simp only [resolveLoop, List.mem_singleton] at he
      exact he

theorem resolve_events (resps : List DepResult) (root : IssueRef) :
    ∀ e ∈ (resolve resps root).1, e = Event.depQuery := by
  cases resps with
  | nil => intro e he; simp [resolve] at he
  | cons r rs =>
    intro e he
    cases r with
    | link x =>
      simp only [resolve, List.mem_cons] at he
      rcases he with h | h
      · exact h
      · exact resolveLoop_events rs x [root] e h
    | noDep =>
      simp only [resolve, List.mem_singleton] at he
      exact he
    | httpError =>
      simp only [resolve, List.mem_singleton] at he
      exact he
    | urlError =>
      simp only [resolve, List.mem_singleton] at he
      exact he

theorem resolveLoop_urlError (ls : List IssueRef) (rest : List DepResult) (d : IssueRef)
    (acc : List IssueRef) :
    resolveLoop (ls.map DepResult.link ++ DepResult.urlError :: rest) d acc
      = (List.replicate (ls.length + 1) Event.depQuery, ResolveOutcome.infra) := by
  induction ls generalizing d acc with
  | nil => simp [resolveLoop]
  | cons x ls ih =>
    simp only [List.map_cons, List.cons_append, resolveLoop, List.append_eq]
    rw [ih x (d :: acc)]
    simp [List.replicate_succ]

theorem resolve_urlError (ls : List IssueRef) (rest : List DepResult) (root : IssueRef) :
    resolve (ls.map DepResult.link ++ DepResult.urlError :: rest) root
      = (List.replicate (ls.length + 1) Event.depQuery, ResolveOutcome.infra) := by
  cases ls with
  | nil => simp [resolve]
  | cons x ls =>
    simp only [List.map_cons, List.cons_append, resolve, List.append_eq]
    rw [resolveLoop_urlError ls rest x [root]]
    simp [List.replicate_succ]

theorem resolveLoop_httpError (ls : List IssueRef) (rest : List DepResult) (d : IssueRef)
    (acc : List IssueRef) :
    resolveLoop (ls.map DepResult.link ++ DepResult.httpError :: rest) d acc
      = (List.replicate (ls.length + 1) Event.depQuery,
         ResolveOutcome.ok ((d :: ls).dropLast.reverse ++ acc) true) := by
  induction ls generalizing d acc with
  | nil => simp [resolveLoop]
  | cons x ls ih =>
    simp only [List.map_cons, List.cons_append, resolveLoop, List.append_eq]
    rw [ih x (d :: acc)]
    simp [List.replicate_succ, List.dropLast, List.append_assoc]

theorem chainOf_head (resps : List DepResult) (d : IssueRef) :
    (chainOf resps d).get? 0 = some d := by
  cases resps with
  | nil => rfl
  | cons r rs => cases r <;> rfl

theorem chainOf_get_link (resps : List DepResult) (d : IssueRef) (k : Nat) (y : IssueRef)
    (h : (chainOf resps d).get? (k + 1) = some y) :
    resps.get? k = some (DepResult.link y) := by
  induction resps generalizing d k with
  | nil => simp [chainOf] at h
  | cons r rs ih =>
    cases r with
    | link x =>
      cases k with
      | zero =>
        simp only [chainOf, List.get?] at h
        rw [chainOf_head rs x] at h
        cases h
        rfl
      | succ k =>
        simp only [chainOf, List.get?] at h
        simpa [List.get?] using ih x k h
    | noDep => simp [chainOf, List.get?] at h
    | httpError => simp [chainOf, List.get?] at h
    | urlError => simp [chainOf, List.get?] at h

theorem resolveLoop_ok_ext (resps : List DepResult) (d : IssueRef) (acc plan : List IssueRef)
    (w : Bool) (h : (resolveLoop resps d acc).2 = ResolveOutcome.ok plan w) :
    ∃ ext t, plan = ext ++ acc ∧ chainOf resps d = ext.reverse ++ t := by
  induction resps generalizing d acc with
  | nil => simp [resolveLoop] at h
  | cons r rs ih =>
    cases r with
    | link x =>
      simp only [resolveLoop] at h
      obtain ⟨ext, t, hp, hc⟩ := ih x (d :: acc) h
      refine ⟨ext ++ [d], t, ?_, ?_⟩
      · rw [hp]; simp
      · simp [chainOf, hc]
    | noDep =>
      simp only [resolveLoop, ResolveOutcome.ok.injEq] at h
      exact ⟨[d], [], by simp [h.1.symm], by simp [chainOf]⟩
    | httpError =>
      simp only [resolveLoop, ResolveOutcome.ok.injEq] at h
      exact ⟨[], [d], by simp [h.1.symm], by simp [chainOf]⟩
    | urlError => simp [resolveLoop] at h

theorem resolve_ok_structure (resps : List DepResult) (root : IssueRef) (plan : List IssueRef)
    (w : Bool) (h : (resolve resps root).2 = ResolveOutcome.ok plan w) :
    plan ≠ [] ∧ plan.getLast? = some root ∧ ∃ t, chainOf resps root = plan.reverse ++ t := by
  cases resps with
  | nil => simp [resolve] at h
  | cons r rs =>
    cases r with
    | link x =>
      simp only [resolve] at h
      obtain ⟨ext, t, hp, hc⟩ := resolveLoop_ok_ext rs x [root] plan w h
      subst hp
      refine ⟨by simp, List.getLast?_concat ext, t, ?_⟩
      simp [chainOf, hc]
    | noDep =>
      simp only [resolve, ResolveOutcome.ok.injEq] at h
      obtain ⟨h1, -⟩ := h
      subst h1
      exact ⟨by simp, rfl, ⟨[], by simp [chainOf]⟩⟩
    | httpError => simp [resolve] at h
    | urlError => simp [resolve] at h

theorem resolveLoop_pending_links (resps : List DepResult) (d : IssueRef)
    (acc : List IssueRef) (n : IssueRef) (p : List IssueRef)
    (h : (resolveLoop resps d acc).2 = ResolveOutcome.pending n p) :
    ∀ r ∈ resps, ∃ x, r = DepResult.link x := by
  induction resps generalizing d acc with
  | nil => intro r hr; simp at hr
  | cons r rs ih =>
    cases r with
    | link x =>
      simp only [resolveLoop] at h
      intro r' hr'
      rcases List.mem_cons.mp hr' with h' | h'
      · exact ⟨x, h'⟩
      · exact ih x (d :: acc) h r' h'
    | noDep => simp [resolveLoop] at h
    | httpError => simp [resolveLoop] at h
    | urlError => simp [resolveLoop] at h

theorem chainOf_linkTargets (resps : List DepResult) (d : IssueRef) :
    ∃ t, d :: linkTargets resps = chainOf resps d ++ t := by
  induction resps generalizing d with
  | nil => exact ⟨[], rfl⟩
  | cons r rs ih =>
    cases r with
    | link x =>
      obtain ⟨t, ht⟩ := ih x
      refine ⟨t, ?_⟩
      simp only [linkTargets, List.filterMap_cons, chainOf] at ht ⊢
      rw [List.cons_append, ← ht]
    | noDep => exact ⟨linkTargets rs, by simp [linkTargets, List.filterMap_cons, chainOf]⟩
    | httpError => exact ⟨linkTargets rs, by simp [linkTargets, List.filterMap_cons, chainOf]⟩
    | urlError => exact ⟨linkTargets rs, by simp [linkTargets, List.filterMap_cons, chainOf]⟩

/-! ## Claim theorems about the dependency-chain resolution -/

/-- C2: every ApplicationPlan built by the resolution loop is nonempty,
ends with the originally requested `(issue, patchset)` pair (index 0 is
the deepest dependency), its reversal is an initial segment of the chain
of queried pairs, and whenever entry `i` immediately precedes entry
`i + 1`, the server returned entry `i` as the dependency link in the
response answering the query about entry `i + 1`. -/
theorem plan_dependency_order (resps : List DepResult) (root : IssueRef)
    (plan : List IssueRef) (w : Bool)
    (h : (resolve resps root).2 = ResolveOutcome.ok plan w) :
    plan ≠ [] ∧ plan.getLast? = some root ∧
      (∃ t, chainOf resps root = plan.reverse ++ t) ∧
      (∀ i y z, plan.get? i = some y → plan.get? (i + 1) = some z →
        ∃ k, (chainOf resps root).get? k = some z ∧
          resps.get? k = some (DepResult.link y)) := by
  obtain ⟨h1, h2, t, h3⟩ := resolve_ok_structure resps root plan w h
  refine ⟨h1, h2, ⟨t, h3⟩, ?_⟩
  intro i y z hy hz
  obtain ⟨hzlt, -⟩ := List.get?_eq_some.mp hz
  have hk1 : plan.length - 2 - i < plan.reverse.length := by
    rw [List.length_reverse]; omega
  have hk2 : plan.length - 2 - i + 1 < plan.reverse.length := by
    rw [List.length_reverse]; omega
  refine ⟨plan.length - 2 - i, ?_, ?_⟩
  · rw [h3, List.get?_append hk1,
      List.get?_reverse (by rw [List.length_reverse] at hk1; exact hk1)]
    have hidx : plan.length - 1 - (plan.length - 2 - i) = i + 1 := by omega
    rw [hidx]; exact hz
  · apply chainOf_get_link
    rw [h3, List.get?_append hk2,
      List.get?_reverse (by rw [List.length_reverse] at hk2; exact hk2)]
    have hidx : plan.length - 1 - (plan.length - 2 - i + 1) = i := by omega
    rw [hidx]; exact hy

/-- Concrete pairs used in witnesses and counterexamples. -/
def refA : IssueRef := ⟨1, 1⟩

def refB : IssueRef := ⟨2, 2⟩

/-- Witness for `plan_dependency_order`: a run whose chain is
`refA ← refB` produces the plan `[refB, refA]`, ending with the root. -/
theorem plan_dependency_order_witness :
    ([refB, refA] : List IssueRef).getLast? = some refA :=
  (plan_dependency_order [DepResult.link refB, DepResult.noDep] refA
    [refB, refA] false rfl).2.1

/-- C3: when the chain consists of `ls.length` dependency links followed
by a not-found (`HTTPError`) answer — the dependency link recorded for
resolution entry `ls.length - 1` points at a pair that no longer exists —
the resolution completes with outcome `ok`, the incompleteness warning is
printed, and the plan has exactly `ls.length` entries: the link whose own
query failed is not included.  The run is not failed. -/
theorem notFound_truncates (ls : List IssueRef) (rest : List DepResult) (root : IssueRef)
    (h : ls ≠ []) :
    resolve (ls.map DepResult.link ++ DepResult.httpError :: rest) root
      = (List.replicate (ls.length + 1) Event.depQuery,
         ResolveOutcome.ok (ls.dropLast.reverse ++ [root]) true) ∧
    (ls.dropLast.reverse ++ [root]).length = ls.length := by
  cases ls with
  | nil => exact absurd rfl h
  | cons x ls =>
    constructor
    · simp only [List.map_cons, List.cons_append, resolve, List.append_eq]
      rw [resolveLoop_httpError ls rest x [root]]
      simp [List.replicate_succ]
    · simp only [List.length_append, List.length_reverse, List.length_dropLast]
      simp

/-- Witness for `notFound_truncates`: the dependency link of the root
points at `refB`, whose own dependency query answers not-found; the plan
is `[refA]` alone and the outcome is a success with the warning. -/
theorem notFound_truncates_witness :
    resolve [DepResult.link refB, DepResult.httpError] refA
      = (List.replicate 2 Event.depQuery, ResolveOutcome.ok [refA] true) :=
  (notFound_truncates [refB] [] refA (by decide)).1

/-- C4 counterexample: the loop has no cycle guard.  When the service
answers "`refA` depends on `refB`", then "`refB` depends on `refA`", then
"`refA` has no dependency", the loop terminates with the plan
`[refA, refB, refA]`, in which the pair `refA` occurs twice. -/
theorem revisit_duplicates_plan :
    (resolve [DepResult.link refB, DepResult.link refA, DepResult.noDep] refA).2
      = ResolveOutcome.ok [refA, refB, refA] false ∧
    ¬ ([refA, refB, refA] : List IssueRef).Nodup := by
  exact ⟨rfl, by decide⟩

/-- C4 amended: the plan contains no pair twice provided the sequence of
link targets returned by the service, together with the root, never
revisits a pair; and the resolution loop runs as long as — and only as
long as — the service keeps answering with dependency links (the model's
`pending` outcome, reachable only on an all-link response list, is the
image of the unbounded loop).  The code itself has no cycle guard. -/
theorem no_revisit_nodup_plan (resps : List DepResult) (root : IssueRef) :
    ((root :: linkTargets resps).Nodup →
      ∀ plan w, (resolve resps root).2 = ResolveOutcome.ok plan w → plan.Nodup) ∧
    (∀ n p, (resolve resps root).2 = ResolveOutcome.pending n p →
      ∀ r ∈ resps, ∃ x, r = DepResult.link x) := by
  constructor
  · intro hnd plan w h
    obtain ⟨-, -, t, h3⟩ := resolve_ok_structure resps root plan w h
    obtain ⟨t2, ht2⟩ := chainOf_linkTargets resps root
    rw [h3, List.append_assoc] at ht2
    rw [ht2] at hnd
    exact List.nodup_reverse.mp hnd.of_append_left
  · intro n p h r hr
    cases resps with
    | nil => simp at hr
    | cons r0 rs =>
      cases r0 with
      | link x =>
        simp only [resolve] at h
        rcases List.mem_cons.mp hr with h' | h'
        · exact ⟨x, h'⟩
        · exact resolveLoop_pending_links rs x [root] n p h r h'
      | noDep => simp [resolve] at h
      | httpError => simp [resolve] at h
      | urlError => simp [resolve] at h

/-- Witness for `no_revisit_nodup_plan`: with the non-revisiting chain
`refA ← refB` the produced plan `[refB, refA]` has no duplicates. -/
theorem no_revisit_nodup_plan_witness :
    ([refB, refA] : List IssueRef).Nodup :=
  (no_revisit_nodup_plan [DepResult.link refB, DepResult.noDep] refA).1
    (by decide) [refB, refA] false rfl

/-! ## Facts about the auth cascade, the apply loop and the trace -/

theorem authRetry_events (env : Env) :
    ∀ e ∈ (authRetry env).1, e = Event.anonPropsFetch ∨ e = Event.authPropsFetch := by
  intro e he
  unfold authRetry at he
  cases hA : env.authFetch <;> rw [hA] at he <;> simp at he <;> tauto

theorem authPhase_events (env : Env) (opts : Options) :
    ∀ e ∈ (authPhase env opts).1,
      e = Event.oauthPropsFetch ∨ e = Event.anonPropsFetch ∨ e = Event.authPropsFetch := by
  intro e he
  unfold authPhase at he
  cases hk : opts.privateKeyFile with
  | some k =>
    rw [hk] at he
    cases hO : env.oauthFetch <;> rw [hO] at he <;> simp at he <;> tauto
  | none =>
    rw [hk] at he
    cases hA : env.anonFetch with
    | ok p => rw [hA] at he; simp at he; tauto
    | http code =>
      rw [hA] at he
      by_cases h1 : code ≠ 302
      · simp [h1] at he; tauto
      · by_cases h2 : opts.noAuth
        · simp [h1, h2] at he; tauto
        · simp only [h1, h2, if_false, if_neg, ite_false] at he
          rcases authRetry_events env e (by simpa [h1, h2] using he) with h | h <;> tauto
    | clientLogin code =>
      rw [hA] at he
      by_cases h1 : code ≠ 302
      · simp [h1] at he; tauto
      · by_cases h2 : opts.noAuth
        · simp [h1, h2] at he; tauto
        · rcases authRetry_events env e (by simpa [h1, h2] using he) with h | h <;> tauto
    | urlError => rw [hA] at he; simp at he; tauto

theorem bbEvents_sub (env : Env) (opts : Options) :
    ∀ e ∈ bbEvents env opts, e = Event.buildbotPatched := by
  intro e he
  unfold bbEvents at he
  split at he
  · simpa using he
  · simp at he

theorem applyLoop_no_syncCall (env : Env) (opts : Options) (plan : List IssueRef)
    (acc : Option (List String)) (args : List String) :
    Event.syncCall args ∉ (applyLoop env opts plan acc).1 := by
  induction plan generalizing acc with
  | nil => simp [applyLoop]
  | cons r rs ih =>
    unfold applyLoop
    cases hF : env.getPatch r with
    | ok files =>
      cases hA : env.applyPatchOk r (applyFilters opts files) with
      | true =>
        simp only [hA, if_true, List.mem_cons, List.mem_append]
        intro hmem
        rcases hmem with h | h | h | h
        · simp at h
        · have := bbEvents_sub env opts _ h; simp at this
        · simp at h
        · exact ih (some (applyFilters opts files)) h
      | false =>
        simp only [hA, Bool.false_eq_true, if_false, List.mem_cons, List.mem_append,
          List.mem_singleton]
        intro hmem
        rcases hmem with h | h | h
        · simp at h
        · have := bbEvents_sub env opts _ h; simp at this
        · simp at h
    | httpError => simp
    | urlError => simp

theorem applyLoop_done_lastFiles (env : Env) (opts : Options) (plan : List IssueRef)
    (acc : Option (List String)) (evs : List Event) (fs : List String)
    (h : applyLoop env opts plan acc = (evs, ApplyLoopOutcome.done (some fs))) :
    (∃ r, Event.patchApply r fs ∈ evs) ∨ acc = some fs := by
  induction plan generalizing acc evs with
  | nil =>
    simp only [applyLoop, Prod.mk.injEq, ApplyLoopOutcome.done.injEq] at h
    exact Or.inr h.2
  | cons r rs ih =>
    unfold applyLoop at h
    cases hF : env.getPatch r with
    | ok files =>
      rw [hF] at h
      cases hA : env.applyPatchOk r (applyFilters opts files) with
      | false => simp [hA] at h
      | true =>
        simp only [hA, if_true] at h
        rw [Prod.ext_iff] at h
        obtain ⟨he, ho⟩ := h
        dsimp only at he ho
        rcases ih (some (applyFilters opts files))
            (applyLoop env opts rs (some (applyFilters opts files))).1
            (by rw [← ho]) with ⟨r2, hr2⟩ | hacc
        · refine Or.inl ⟨r2, ?_⟩
          rw [← he]
          simp [hr2]
        · obtain rfl : applyFilters opts files = fs := by injection hacc
          refine Or.inl ⟨r, ?_⟩
          rw [← he]
          simp
    | httpError => rw [hF] at h; simp at h
    | urlError => rw [hF] at h; simp at h

theorem touchedFileSet_append (a b : List Event) :
    touchedFileSet (a ++ b) = touchedFileSet a ++ touchedFileSet b := by
  induction a with
  | nil => rfl
  | cons e rest ih =>
    cases e <;> simp [touchedFileSet, ih]

theorem subset_touchedFileSet (evs : List Event) (r : IssueRef) (fs : List String)
    (h : Event.patchApply r fs ∈ evs) : ∀ f ∈ fs, f ∈ touchedFileSet evs := by
  induction evs with
  | nil => simp at h
  | cons e rest ih =>
    intro f hf
    rcases List.mem_cons.mp h with h' | h'
    · subst h'
      simp [touchedFileSet, hf]
    · cases e <;> simp [touchedFileSet, ih h' f hf]

theorem syncPhase_syncCall_inv (env : Env) (opts : Options) (lastFiles : List String)
    (args : List String) (hs : Event.syncCall args ∈ (syncPhase env opts lastFiles).1) :
    "DEPS" ∈ lastFiles.map basename ∧ opts.ignoreDeps = false ∧
    env.gclientRootFound = true ∧ env.scmType ≠ ScmKind.noScm ∧
    (syncPhase env opts lastFiles).2 = some env.syncRetcode ∧
    args = ["sync", "--nohooks", "--delete_unversioned_trees"]
      ++ (if env.scmType = ScmKind.svn then ["--revision", "BASE"] else [])
      ++ (if opts.revisionMapping then ["--output-json", env.tempFile] else []) := by
  unfold syncPhase at hs
  split at hs
  · split at hs
    · rename_i hc1 hc2
      simp only [List.mem_cons] at hs
      rcases hs with h | h
      · refine ⟨hc1.1, hc1.2, hc2.1, hc2.2, ?_, ?_⟩
        · unfold syncPhase
          rw [if_pos hc1, if_pos hc2]
        · injection h
      · exfalso
        revert h
        split <;> simp
    · simp at hs
  · simp at hs

theorem main_syncCall_inv (env : Env) (opts : Options) (evs : List Event)
    (code : Option Nat) (args : List String)
    (h : main env opts = (evs, code)) (hs : Event.syncCall args ∈ evs) :
    opts.ignoreDeps = false ∧ env.gclientRootFound = true ∧ env.scmType ≠ ScmKind.noScm ∧
    code = some env.syncRetcode ∧
    args = ["sync", "--nohooks", "--delete_unversioned_trees"]
      ++ (if env.scmType = ScmKind.svn then ["--revision", "BASE"] else [])
      ++ (if opts.revisionMapping then ["--output-json", env.tempFile] else []) ∧
    ∃ lastFiles, "DEPS" ∈ lastFiles.map basename ∧
      ∃ r, Event.patchApply r lastFiles ∈ evs := by
  unfold main at h
  split at h
  · cases h
    simp at hs
  · unfold mainBody at h
    split at h
    · rename_i aevs code2 hA
      cases h
      have := authPhase_events env opts _ (by rw [hA]; exact hs)
      simp at this
    · rename_i aevs props hA
      unfold afterResolve at h
      split at h
      · rename_i devs hR
        cases h
        rcases List.mem_append.mp hs with h' | h'
        · have := authPhase_events env opts _ (by rw [hA]; exact h')
          simp at this
        · have := resolve_events env.depResponses _ _ (by rw [hR]; exact h')
          simp at this
      · rename_i devs n p hR
        cases h
        rcases List.mem_append.mp hs with h' | h'
        · have := authPhase_events env opts _ (by rw [hA]; exact h')
          simp at this
        · have := resolve_events env.depResponses _ _ (by rw [hR]; exact h')
          simp at this
      · rename_i devs plan w hR
        unfold afterPlan at h
        split at h
        · rename_i pevs c hP
          cases h
          rcases List.mem_append.mp hs with h' | h'
          · rcases List.mem_append.mp h' with h'' | h''
            · have := authPhase_events env opts _ (by rw [hA]; exact h'')
              simp at this
            · have := resolve_events env.depResponses _ _ (by rw [hR]; exact h'')
              simp at this
          · have := applyLoop_no_syncCall env opts plan none args
            rw [hP] at this
            exact absurd h' this
        · rename_i pevs hP
          cases h
          rcases List.mem_append.mp hs with h' | h'
          · rcases List.mem_append.mp h' with h'' | h''
            · have := authPhase_events env opts _ (by rw [hA]; exact h'')
              simp at this
            · have := resolve_events env.depResponses _ _ (by rw [hR]; exact h'')
              simp at this
          · have := applyLoop_no_syncCall env opts plan none args
            rw [hP] at this
            exact absurd h' this
        · rename_i pevs lastFiles hP
          cases h
          have hsync : Event.syncCall args ∈ (syncPhase env opts lastFiles).1 := by
            rcases List.mem_append.mp hs with h' | h'
            · exfalso
              rcases List.mem_append.mp h' with h'' | h''
              · rcases List.mem_append.mp h'' with h3 | h3
                · have := authPhase_events env opts _ (by rw [hA]; exact h3)
                  simp at this
                · have := resolve_events env.depResponses _ _ (by rw [hR]; exact h3)
                  simp at this
              · have := applyLoop_no_syncCall env opts plan none args
                rw [hP] at this
                exact absurd h'' this
            · exact h'
          obtain ⟨hdeps, hig, hgr, hscm, hcode, hargs⟩ :=
            syncPhase_syncCall_inv env opts lastFiles args hsync
          refine ⟨hig, hgr, hscm, hcode, hargs, lastFiles, hdeps, ?_⟩
          rcases applyLoop_done_lastFiles env opts plan none pevs lastFiles hP with ⟨r, hr⟩ | hacc
          · exact ⟨r, by simp [hr]⟩
          · simp at hacc

/-! ## Claim theorems about the orchestration of `main` -/

/-- C1: whenever a run invokes the `gclient sync` subprocess, the manifest
basename `DEPS` is among the basenames of the TouchedFileSet (the union of
the filtered filenames of every successfully applied patchset recorded in
the trace), `--ignore_deps` was not given, and the working directory is
inside a gclient root; a run in which any of these fails never invokes the
sync subprocess.  (The code tests `DEPS` only against the last applied
patchset's filenames, which is a subset of the union, so the only-if
direction claimed here holds.) -/
theorem sync_only_if_conditions (env : Env) (opts : Options) (evs : List Event)
    (code : Option Nat) (args : List String)
    (h : main env opts = (evs, code)) (hs : Event.syncCall args ∈ evs) :
    "DEPS" ∈ (touchedFileSet evs).map basename ∧
    opts.ignoreDeps = false ∧ env.gclientRootFound = true := by
  obtain ⟨hig, hgr, -, -, -, lastFiles, hdeps, r, hmem⟩ :=
    main_syncCall_inv env opts evs code args h hs
  refine ⟨?_, hig, hgr⟩
  rcases List.mem_map.mp hdeps with ⟨f, hf, hbase⟩
  exact List.mem_map.mpr ⟨f, subset_touchedFileSet evs r lastFiles hmem f hf, hbase⟩

/-- C9: whenever the sync subprocess is invoked its argument vector is
exactly `sync --nohooks --delete_unversioned_trees`, with
`--revision BASE` appended exactly when the detected checkout kind is
svn (and `--output-json` appended when a revision mapping was supplied),
and the subprocess's exit code — zero or not — is the program's own exit
code. -/
theorem sync_invocation_shape (env : Env) (opts : Options) (evs : List Event)
    (code : Option Nat) (args : List String)
    (h : main env opts = (evs, code)) (hs : Event.syncCall args ∈ evs) :
    args = ["sync", "--nohooks", "--delete_unversioned_trees"]
      ++ (if env.scmType = ScmKind.svn then ["--revision", "BASE"] else [])
      ++ (if opts.revisionMapping then ["--output-json", env.tempFile] else []) ∧
    code = some env.syncRetcode := by
  obtain ⟨-, -, -, hcode, hargs, -⟩ := main_syncCall_inv env opts evs code args h hs
  exact ⟨hargs, hcode⟩

/-- A run in which everything succeeds and the patchset touches `DEPS`:
used as the witness environment for several claims. -/
def wEnv : Env where
  updateFlagInCwd := false
  emailFileExists := true
  oauthFetch := AuthResult.urlError
  anonFetch := AuthResult.ok ⟨[7]⟩
  authFetch := AuthResult.urlError
  depResponses := [DepResult.noDep]
  getPatch := fun _ => FetchResult.ok ["DEPS"]
  applyPatchOk := fun _ _ => true
  user := "someone"
  scmType := ScmKind.git
  gclientRootFound := true
  syncRetcode := 5
  tempFile := "tmpjson"

/-- A plain valid invocation: issue 1, patchset 1, no filters. -/
def wOpts : Options where
  email := none
  emailFile := none
  privateKeyFile := none
  issue := 1
  patchset := 1
  rootDir := "work"
  server := "http://server"
  noAuth := false
  revisionMapping := false
  force := false
  whitelist := []
  blacklist := []
  ignoreDeps := false
  extraArgs := []

/-- Witness for `sync_only_if_conditions`: in the `wEnv`/`wOpts` run the
sync subprocess fires and all three conditions hold. -/
theorem sync_only_if_conditions_witness :
    "DEPS" ∈ (touchedFileSet
      [Event.anonPropsFetch, Event.depQuery, Event.patchFetch ⟨1, 1⟩,
       Event.patchApply ⟨1, 1⟩ ["DEPS"],
       Event.syncCall ["sync", "--nohooks", "--delete_unversioned_trees"]]).map basename ∧
    wOpts.ignoreDeps = false ∧ wEnv.gclientRootFound = true :=
  sync_only_if_conditions wEnv wOpts
    [Event.anonPropsFetch, Event.depQuery, Event.patchFetch ⟨1, 1⟩,
     Event.patchApply ⟨1, 1⟩ ["DEPS"],
     Event.syncCall ["sync", "--nohooks", "--delete_unversioned_trees"]]
    (some 5) ["sync", "--nohooks", "--delete_unversioned_trees"] rfl (by decide)

/-- Witness for `sync_invocation_shape`: in the `wEnv`/`wOpts` run (a git
checkout, no revision mapping) the argument vector has no `--revision`
pin and the exit code is the subprocess's code 5. -/
theorem sync_invocation_shape_witness :
    (["sync", "--nohooks", "--delete_unversioned_trees"] : List String)
      = ["sync", "--nohooks", "--delete_unversioned_trees"]
        ++ (if wEnv.scmType = ScmKind.svn then ["--revision", "BASE"] else [])
        ++ (if wOpts.revisionMapping then ["--output-json", wEnv.tempFile] else []) ∧
    (some 5 : Option Nat) = some wEnv.syncRetcode :=
  sync_invocation_shape wEnv wOpts
    [Event.anonPropsFetch, Event.depQuery, Event.patchFetch ⟨1, 1⟩,
     Event.patchApply ⟨1, 1⟩ ["DEPS"],
     Event.syncCall ["sync", "--nohooks", "--delete_unversioned_trees"]]
    (some 5) ["sync", "--nohooks", "--delete_unversioned_trees"] rfl (by decide)

/-- C5: a plain `URLError` (transport fault) answering any
`get_depends_on_patchset` call — the initial one (`ls = []`) or one at any
positive depth — makes the run return the infrastructure exit code 3, and
the trace contains no patch fetch and no patch application. -/
theorem transport_fault_aborts (env : Env) (opts : Options) (ls : List IssueRef)
    (rest : List DepResult) (aevs : List Event) (props : IssueProps)
    (hentry : entryCheck env opts = none)
    (hauth : authPhase env opts = (aevs, Sum.inl props))
    (hdep : env.depResponses = ls.map DepResult.link ++ DepResult.urlError :: rest) :
    (main env opts).2 = some RETURN_CODE_INFRA_FAILURE ∧
    ∀ e ∈ (main env opts).1, (∀ r, e ≠ Event.patchFetch r) ∧
      (∀ r fs, e ≠ Event.patchApply r fs) ∧
      (∀ r fs, e ≠ Event.patchApplyFailed r fs) := by
  have h1 : main env opts = mainBody env opts := by
    unfold main
    rw [hentry]
  have h2 : mainBody env opts
      = afterResolve env opts aevs (resolve env.depResponses (rootRef opts props)) := by
    unfold mainBody
    rw [hauth]
  have hmain : main env opts
      = (aevs ++ List.replicate (ls.length + 1) Event.depQuery,
         some RETURN_CODE_INFRA_FAILURE) := by
    rw [h1, h2, hdep, resolve_urlError]
    rfl
  rw [hmain]
  refine ⟨rfl, ?_⟩
  intro e he
  rcases List.mem_append.mp he with h' | h'
  · rcases authPhase_events env opts e (by rw [hauth]; exact h') with h | h | h <;>
      subst h <;> exact ⟨fun r => by simp, fun r fs => by simp, fun r fs => by simp⟩
  · have := List.eq_of_mem_replicate h'
    subst this
    exact ⟨fun r => by simp, fun r fs => by simp, fun r fs => by simp⟩

/-- The witness environment for `transport_fault_aborts`: the very first
dependency query hits a transport fault. -/
def wEnvUrl : Env := { wEnv with depResponses := [DepResult.urlError] }

/-- Witness for `transport_fault_aborts`: the `wEnvUrl` run exits 3. -/
theorem transport_fault_aborts_witness :
    (main wEnvUrl wOpts).2 = some RETURN_CODE_INFRA_FAILURE :=
  (transport_fault_aborts wEnvUrl wOpts [] [] [Event.anonPropsFetch] ⟨[7]⟩
    rfl rfl rfl).1

theorem authRetry_fst (env : Env) :
    (authRetry env).1 = [Event.anonPropsFetch, Event.authPropsFetch] := by
  unfold authRetry
  cases env.authFetch <;> rfl

theorem afterPlan_events_prefix (env : Env) (opts : Options) (aevs devs : List Event)
    (pr : List Event × ApplyLoopOutcome) :
    ∃ t, (afterPlan env opts aevs devs pr).1 = aevs ++ t := by
  rcases pr with ⟨pevs, out⟩
  cases out with
  | fail c => exact ⟨devs ++ pevs, by simp [afterPlan]⟩
  | done lf =>
    cases lf with
    | none => exact ⟨devs ++ pevs, by simp [afterPlan]⟩
    | some lastFiles =>
      exact ⟨devs ++ pevs ++ (syncPhase env opts lastFiles).1, by simp [afterPlan]⟩

theorem afterResolve_events_prefix (env : Env) (opts : Options) (aevs : List Event)
    (rr : List Event × ResolveOutcome) :
    ∃ t, (afterResolve env opts aevs rr).1 = aevs ++ t := by
  rcases rr with ⟨devs, out⟩
  cases out with
  | infra => exact ⟨devs, by simp [afterResolve]⟩
  | pending n p => exact ⟨devs, by simp [afterResolve]⟩
  | ok plan w =>
    obtain ⟨t, ht⟩ := afterPlan_events_prefix env opts aevs devs
      (applyLoop env opts plan none)
    exact ⟨t, by simpa [afterResolve] using ht⟩

theorem mainBody_events_prefix (env : Env) (opts : Options) :
    ∃ t, (mainBody env opts).1 = (authPhase env opts).1 ++ t := by
  unfold mainBody
  rcases hA : authPhase env opts with ⟨aevs, ares⟩
  cases ares with
  | inr c => exact ⟨[], by simp⟩
  | inl props =>
    obtain ⟨t, ht⟩ := afterResolve_events_prefix env opts aevs
      (resolve env.depResponses (rootRef opts props))
    exact ⟨t, by simpa using ht⟩

theorem authPhase_head (env : Env) (opts : Options)
    (hkey : opts.privateKeyFile = none) :
    ∃ t2, (authPhase env opts).1 = Event.anonPropsFetch :: t2 := by
  simp only [authPhase, hkey]
  split
  · exact ⟨[], rfl⟩
  · split
    · exact ⟨[], rfl⟩
    · split
      · exact ⟨[], rfl⟩
      · exact ⟨[Event.authPropsFetch], authRetry_fst env⟩
  · split
    · exact ⟨[], rfl⟩
    · split
      · exact ⟨[], rfl⟩
      · exact ⟨[Event.authPropsFetch], authRetry_fst env⟩
  · exact ⟨[], rfl⟩

/-- C6: without a private key file, the unauthenticated read happens
first; on an HTTP 302 with `--no-auth` the run stops with the non-zero
exit 1 and no authenticated attempt is ever made; on an HTTP 302 without
`--no-auth` the same read is retried on the authenticated client; and if
that retry is rejected with a `ClientLoginError`, the run exits 1. -/
theorem auth_cascade (env : Env) (opts : Options)
    (hentry : entryCheck env opts = none)
    (hkey : opts.privateKeyFile = none) :
    (main env opts).1.head? = some Event.anonPropsFetch ∧
    (env.anonFetch = AuthResult.http 302 → opts.noAuth = true →
      main env opts = ([Event.anonPropsFetch], some RETURN_CODE_OTHER_FAILURE)) ∧
    (env.anonFetch = AuthResult.http 302 → opts.noAuth = false →
      Event.authPropsFetch ∈ (main env opts).1) ∧
    (env.anonFetch = AuthResult.http 302 → opts.noAuth = false →
      ∀ c, env.authFetch = AuthResult.clientLogin c →
        main env opts = ([Event.anonPropsFetch, Event.authPropsFetch],
          some RETURN_CODE_OTHER_FAILURE)) := by
  have hmb : main env opts = mainBody env opts := by
    unfold main
    rw [hentry]
  refine ⟨?_, ?_, ?_, ?_⟩
  · rw [hmb]
    obtain ⟨t, ht⟩ := mainBody_events_prefix env opts
    obtain ⟨t2, ht2⟩ := authPhase_head env opts hkey
    rw [ht, ht2]
    rfl
  · intro hA hNo
    have hAP : authPhase env opts
        = ([Event.anonPropsFetch], Sum.inr RETURN_CODE_OTHER_FAILURE) := by
      unfold authPhase
      rw [hkey, hA]
      simp [hNo]
    rw [hmb]
    unfold mainBody
    rw [hAP]
  · intro hA hNo
    have hAP : authPhase env opts = authRetry env := by
      unfold authPhase
      rw [hkey, hA]
      simp [hNo]
    rw [hmb]
    obtain ⟨t, ht⟩ := mainBody_events_prefix env opts
    rw [ht, hAP, authRetry_fst]
    simp
  · intro hA hNo c hC
    have hAP : authPhase env opts
        = ([Event.anonPropsFetch, Event.authPropsFetch],
           Sum.inr RETURN_CODE_OTHER_FAILURE) := by
      unfold authPhase
      rw [hkey, hA]
      simp only [hNo]
      unfold authRetry
      rw [hC]
      simp
    rw [hmb]
    unfold mainBody
    rw [hAP]

/-- The witness environment for `auth_cascade`: the unauthenticated read
redirects (302) and the authenticated retry is rejected. -/
def wEnvAuth : Env :=
  { wEnv with anonFetch := AuthResult.http 302, authFetch := AuthResult.clientLogin 403 }

/-- Witness for `auth_cascade`: the rejected authenticated retry exits 1
after the anonymous and the authenticated attempt. -/
theorem auth_cascade_witness :
    main wEnvAuth wOpts = ([Event.anonPropsFetch, Event.authPropsFetch],
      some RETURN_CODE_OTHER_FAILURE) :=
  (auth_cascade wEnvAuth wOpts rfl rfl).2.2.2 rfl rfl 403 rfl

/-- The trace of one successfully fetched-and-applied plan entry. -/
def okEntryTrace (env : Env) (opts : Options) (fs : IssueRef → List String)
    (x : IssueRef) : List Event :=
  Event.patchFetch x :: (bbEvents env opts ++ [Event.patchApply x (applyFilters opts (fs x))])

theorem applyLoop_fail_trace (env : Env) (opts : Options) (xs ys : List IssueRef)
    (r : IssueRef) (fs : IssueRef → List String) (fr : List String)
    (acc : Option (List String))
    (hxs : ∀ x ∈ xs, env.getPatch x = FetchResult.ok (fs x) ∧
      env.applyPatchOk x (applyFilters opts (fs x)) = true)
    (hr : env.getPatch r = FetchResult.ok fr)
    (hfail : env.applyPatchOk r (applyFilters opts fr) = false) :
    applyLoop env opts (xs ++ r :: ys) acc
      = ((xs.map (okEntryTrace env opts fs)).join
          ++ (Event.patchFetch r :: (bbEvents env opts
              ++ [Event.patchApplyFailed r (applyFilters opts fr)])),
         ApplyLoopOutcome.fail RETURN_CODE_OTHER_FAILURE) := by
  revert hxs
  induction xs generalizing acc with
  | nil =>
    intro hxs
    simp only [List.nil_append]
    unfold applyLoop
    rw [hr]
    simp [hfail]
  | cons x xs ih =>
    intro hxs
    obtain ⟨hg, ha⟩ := hxs x (List.mem_cons_self x xs)
    have ih' := ih (some (applyFilters opts (fs x)))
      (fun y hy => hxs y (List.mem_cons_of_mem x hy))
    simp only [List.cons_append]
    unfold applyLoop
    rw [hg]
    simp [ha, ih', okEntryTrace, List.append_assoc]

/-- C7: the fetch/apply loop walks the plan `xs ++ r :: ys` strictly in
order; when every entry of `xs` fetches and applies cleanly and `r`'s
patch fails to apply, the run exits with code 1, the trace ends at `r`'s
failure — so no entry of `ys` (in particular the root in a plan
`[X, root]`) is ever fetched or applied — and the earlier entries' patch
applications stay in the trace (nothing is rolled back). -/
theorem plan_halts_on_apply_failure (env : Env) (opts : Options)
    (xs ys : List IssueRef) (r : IssueRef) (fs : IssueRef → List String)
    (fr : List String) (aevs devs : List Event) (props : IssueProps) (w : Bool)
    (hentry : entryCheck env opts = none)
    (hauth : authPhase env opts = (aevs, Sum.inl props))
    (hplan : resolve env.depResponses (rootRef opts props)
      = (devs, ResolveOutcome.ok (xs ++ r :: ys) w))
    (hxs : ∀ x ∈ xs, env.getPatch x = FetchResult.ok (fs x) ∧
      env.applyPatchOk x (applyFilters opts (fs x)) = true)
    (hr : env.getPatch r = FetchResult.ok fr)
    (hfail : env.applyPatchOk r (applyFilters opts fr) = false) :
    main env opts
      = (aevs ++ devs ++ ((xs.map (okEntryTrace env opts fs)).join
          ++ (Event.patchFetch r :: (bbEvents env opts
              ++ [Event.patchApplyFailed r (applyFilters opts fr)]))),
         some RETURN_CODE_OTHER_FAILURE) ∧
    (∀ y, Event.patchFetch y ∈ (main env opts).1 → y ∈ xs ∨ y = r) ∧
    (∀ x ∈ xs, Event.patchApply x (applyFilters opts (fs x)) ∈ (main env opts).1) := by
  have h1 : main env opts = mainBody env opts := by
    unfold main
    rw [hentry]
  have h2 : mainBody env opts = afterResolve env opts aevs
      (resolve env.depResponses (rootRef opts props)) := by
    unfold mainBody
    rw [hauth]
  have h3 := applyLoop_fail_trace env opts xs ys r fs fr none hxs hr hfail
  have hmain : main env opts
      = (aevs ++ devs ++ ((xs.map (okEntryTrace env opts fs)).join
          ++ (Event.patchFetch r :: (bbEvents env opts
              ++ [Event.patchApplyFailed r (applyFilters opts fr)]))),
         some RETURN_CODE_OTHER_FAILURE) := by
    rw [h1, h2, hplan]
    show afterPlan env opts aevs devs (applyLoop env opts (xs ++ r :: ys) none) = _
    rw [h3]
    rfl
  refine ⟨hmain, ?_, ?_⟩
  · intro y hy
    rw [hmain] at hy
    rcases List.mem_append.mp hy with hy1 | hy2
    · rcases List.mem_append.mp hy1 with ha | hd
      · rcases authPhase_events env opts _ (by rw [hauth]; exact ha) with h | h | h <;>
          simp at h
      · have := resolve_events env.depResponses _ _ (by rw [hplan]; exact hd)
        simp at this
    · rcases List.mem_append.mp hy2 with hj | hc
      · rcases List.mem_join.mp hj with ⟨l, hl, hel⟩
        rcases List.mem_map.mp hl with ⟨x, hx, rfl⟩
        left
        rcases List.mem_cons.mp hel with h | h
        · injection h with h2
          subst h2
          exact hx
        · rcases List.mem_append.mp h with h2 | h2
          · have := bbEvents_sub env opts _ h2
            simp at this
          · simp at h2
      · rcases List.mem_cons.mp hc with h | h
        · right
          injection h
        · rcases List.mem_append.mp h with h2 | h2
          · have := bbEvents_sub env opts _ h2
            simp at this
          · simp at h2
  · intro x hx
    rw [hmain]
    refine List.mem_append.mpr (Or.inr (List.mem_append.mpr (Or.inl ?_)))
    refine List.mem_join.mpr ⟨okEntryTrace env opts fs x, List.mem_map.mpr ⟨x, hx, rfl⟩, ?_⟩
    simp [okEntryTrace]

/-- The witness environment for `plan_halts_on_apply_failure`: the root
depends on issue 2 patchset 3, whose patch fails to apply. -/
def wEnvFail : Env :=
  { wEnv with depResponses := [DepResult.link ⟨2, 3⟩, DepResult.noDep],
              applyPatchOk := fun _ _ => false }

/-- Witness for `plan_halts_on_apply_failure`: with plan `[⟨2,3⟩, ⟨1,1⟩]`
and `⟨2,3⟩`'s patch failing, the run exits 1 right after the failure and
the root `⟨1,1⟩` is never fetched. -/
theorem plan_halts_on_apply_failure_witness :
    main wEnvFail wOpts
      = ([Event.anonPropsFetch, Event.depQuery, Event.depQuery,
          Event.patchFetch ⟨2, 3⟩, Event.patchApplyFailed ⟨2, 3⟩ ["DEPS"]],
         some RETURN_CODE_OTHER_FAILURE) :=
  (plan_halts_on_apply_failure wEnvFail wOpts [] [⟨1, 1⟩] ⟨2, 3⟩
    (fun _ => ["DEPS"]) ["DEPS"] [Event.anonPropsFetch]
    [Event.depQuery, Event.depQuery] ⟨[7]⟩ false rfl rfl rfl
    (fun x hx => absurd hx (List.not_mem_nil x)) rfl rfl).1

/-- C8: supplying both `--whitelist` and `--blacklist` ends the run with
`parser.error` (exit 2) and an empty trace: no network request is made
and no patchset is fetched, filtered or applied. -/
theorem conflicting_filters_rejected (env : Env) (opts : Options)
    (hw : opts.whitelist ≠ []) (hb : opts.blacklist ≠ []) :
    main env opts = ([], some RETURN_CODE_ARGPARSE_FAILURE) := by
  unfold main entryCheck
  rw [if_pos ⟨hw, hb⟩]

/-- An invocation naming both an allow-list and a deny-list. -/
def cOpts : Options := { wOpts with whitelist := ["a"], blacklist := ["b"] }

/-- Witness for `conflicting_filters_rejected`. -/
theorem conflicting_filters_rejected_witness :
    main wEnv cOpts = ([], some RETURN_CODE_ARGPARSE_FAILURE) :=
  conflicting_filters_rejected wEnv cOpts (by decide) (by decide)

/-- An environment whose working directory contains `update.flag`. -/
def cEnv : Env := { wEnv with updateFlagInCwd := true }

/-- C10 counterexample: `update.flag` is present and `--force` absent, yet
`main` exits 2, not 0, because the invocation also supplies both
`--whitelist` and `--blacklist` and that check precedes the sentinel
check (lines 107-108 versus 113-117). -/
theorem update_flag_not_immediate :
    cEnv.updateFlagInCwd = true ∧ cOpts.force = false ∧
    main cEnv cOpts = ([], some RETURN_CODE_ARGPARSE_FAILURE) ∧
    RETURN_CODE_ARGPARSE_FAILURE ≠ RETURN_CODE_OK := by
  exact ⟨rfl, rfl, rfl, by decide⟩

theorem applyLoop_flag (u ef : Bool) (o a af : AuthResult) (dr : List DepResult)
    (gp : IssueRef → FetchResult) (ap : IssueRef → List String → Bool) (us : String)
    (sk : ScmKind) (gr : Bool) (sr : Nat) (tf : String) (opts : Options)
    (plan : List IssueRef) (acc : Option (List String)) :
    applyLoop ⟨u, ef, o, a, af, dr, gp, ap, us, sk, gr, sr, tf⟩ opts plan acc
      = applyLoop ⟨false, ef, o, a, af, dr, gp, ap, us, sk, gr, sr, tf⟩ opts plan acc := by
  induction plan generalizing acc with
  | nil => rfl
  | cons r rs ih =>
    unfold applyLoop
    dsimp only
    cases hF : gp r with
    | ok files =>
      cases hA : ap r (applyFilters opts files) with
      | true => simp [hA, ih, bbEvents]
      | false => simp [hA, bbEvents]
    | httpError => rfl
    | urlError => rfl

theorem afterPlan_flag (u ef : Bool) (o a af : AuthResult) (dr : List DepResult)
    (gp : IssueRef → FetchResult) (ap : IssueRef → List String → Bool) (us : String)
    (sk : ScmKind) (gr : Bool) (sr : Nat) (tf : String) (opts : Options)
    (aevs devs : List Event) (pr : List Event × ApplyLoopOutcome) :
    afterPlan ⟨u, ef, o, a, af, dr, gp, ap, us, sk, gr, sr, tf⟩ opts aevs devs pr
      = afterPlan ⟨false, ef, o, a, af, dr, gp, ap, us, sk, gr, sr, tf⟩ opts aevs devs pr := by
  rcases pr with ⟨pevs, out⟩
  cases out with
  | fail c => rfl
  | done lf =>
    cases lf with
    | none => rfl
    | some lastFiles => rfl

theorem afterResolve_flag (u ef : Bool) (o a af : AuthResult) (dr : List DepResult)
    (gp : IssueRef → FetchResult) (ap : IssueRef → List String → Bool) (us : String)
    (sk : ScmKind) (gr : Bool) (sr : Nat) (tf : String) (opts : Options)
    (aevs : List Event) (rr : List Event × ResolveOutcome) :
    afterResolve ⟨u, ef, o, a, af, dr, gp, ap, us, sk, gr, sr, tf⟩ opts aevs rr
      = afterResolve ⟨false, ef, o, a, af, dr, gp, ap, us, sk, gr, sr, tf⟩ opts aevs rr := by
  rcases rr with ⟨devs, out⟩
  cases out with
  | infra => rfl
  | pending n p => rfl
  | ok plan w =>
    show afterPlan ⟨u, ef, o, a, af, dr, gp, ap, us, sk, gr, sr, tf⟩ opts aevs devs
        (applyLoop ⟨u, ef, o, a, af, dr, gp, ap, us, sk, gr, sr, tf⟩ opts plan none)
      = afterPlan ⟨false, ef, o, a, af, dr, gp, ap, us, sk, gr, sr, tf⟩ opts aevs devs
        (applyLoop ⟨false, ef, o, a, af, dr, gp, ap, us, sk, gr, sr, tf⟩ opts plan none)
    rw [applyLoop_flag]
    exact afterPlan_flag u ef o a af dr gp ap us sk gr sr tf opts aevs devs _

theorem mainBody_flag (u ef : Bool) (o a af : AuthResult) (dr : List DepResult)
    (gp : IssueRef → FetchResult) (ap : IssueRef → List String → Bool) (us : String)
    (sk : ScmKind) (gr : Bool) (sr : Nat) (tf : String) (opts : Options) :
    mainBody ⟨u, ef, o, a, af, dr, gp, ap, us, sk, gr, sr, tf⟩ opts
      = mainBody ⟨false, ef, o, a, af, dr, gp, ap, us, sk, gr, sr, tf⟩ opts := by
  unfold mainBody
  simp only [afterResolve_flag u ef o a af dr gp ap us sk gr sr tf opts]
  rw [show authPhase ⟨u, ef, o, a, af, dr, gp, ap, us, sk, gr, sr, tf⟩ opts
      = authPhase ⟨false, ef, o, a, af, dr, gp, ap, us, sk, gr, sr, tf⟩ opts from rfl]

/-- C10 amended: provided the two argument-compatibility checks that
precede the sentinel check pass (not both `--whitelist` and
`--blacklist`, not both `-e` and `-E`), an `update.flag` in the process's
current working directory without `--force` makes `main` return 0 with an
empty trace — before any network request or patch application; and with
`--force` the sentinel file is ignored entirely: the run is the same as
with the file absent. -/
theorem update_flag_short_circuit (env : Env) (opts : Options)
    (hwb : ¬(opts.whitelist ≠ [] ∧ opts.blacklist ≠ []))
    (hee : ¬(opts.email.isSome ∧ opts.emailFile.isSome)) :
    (env.updateFlagInCwd = true → opts.force = false →
      main env opts = ([], some RETURN_CODE_OK)) ∧
    (opts.force = true →
      main env opts = main { env with updateFlagInCwd := false } opts) := by
  constructor
  · intro hf hforce
    unfold main entryCheck
    rw [if_neg hwb, if_neg hee, if_pos ⟨hf, hforce⟩]
  · intro hforce
    rcases env with ⟨u, ef, o, a, af, dr, gp, ap, us, sk, gr, sr, tf⟩
    unfold main entryCheck
    simp only [hforce]
    rw [mainBody_flag]
    simp

/-- Witness for `update_flag_short_circuit`: with the sentinel present and
no `--force`, the run is a no-op success. -/
theorem update_flag_short_circuit_witness :
    main cEnv wOpts = ([], some RETURN_CODE_OK) :=
  (update_flag_short_circuit cEnv wOpts (by decide) (by decide)).1 rfl rfl

end ApplyIssue
